import Mathlib

/-!
Shallow embedding of the data migration
`pkg/services/migration/data-migrations/0097_load_initial_safe_data.py`.

The migration defines two hooks:

* `load_initial_safe_data(apps, schema_editor)`: if a fixed fixture path
  exists on disk, runs `call_command('loaddata', fixture_file, verbosity=0)`
  inside a blanket `try/except Exception: pass`.
* `reverse_initial_safe_data(apps, schema_editor)`: resolves six model
  handles through `apps.get_model` (outside any exception handler), then
  inside a blanket `try/except Exception: pass` issues
  `Model.objects.all().delete()` against the six models in a fixed order.

The store is modelled as six lists of opaque records, one per collection.
External behaviours (filesystem, the loaddata primitive, the ORM delete,
the schema registry) are passed in as explicit parameters; a raising call
is an `Except.error` whose payload carries the (possibly partially
mutated) store, so that partial effects of a failed bulk operation are
representable.
-/

set_option linter.unusedVariables false

namespace SafeMigration

/-- The six data-store collections touched by this migration. -/
inductive Collection where
  | safeContract
  | contract
  | contractAbi
  | safeMasterCopy
  | proxyFactory
  | chain
deriving DecidableEq, Repr

/-- Rows are opaque to this component; an identifier stands for a record. -/
abbrev Record := Nat

/-- The relevant slice of the data store: the rows of each of the six
collections. -/
structure Store where
  safeContract : List Record
  contract : List Record
  contractAbi : List Record
  safeMasterCopy : List Record
  proxyFactory : List Record
  chain : List Record
deriving DecidableEq, Repr

/-- Rows of one collection. -/
def Store.get (s : Store) : Collection → List Record
  | .safeContract => s.safeContract
  | .contract => s.contract
  | .contractAbi => s.contractAbi
  | .safeMasterCopy => s.safeMasterCopy
  | .proxyFactory => s.proxyFactory
  | .chain => s.chain

/-- Replace the rows of one collection. -/
def Store.set (s : Store) : Collection → List Record → Store
  | .safeContract, v => { s with safeContract := v }
  | .contract, v => { s with contract := v }
  | .contractAbi, v => { s with contractAbi := v }
  | .safeMasterCopy, v => { s with safeMasterCopy := v }
  | .proxyFactory, v => { s with proxyFactory := v }
  | .chain, v => { s with chain := v }

/-- The store in which all six collections are empty. -/
def emptyStore : Store := ⟨[], [], [], [], [], []⟩

/-- One invocation of django's `call_command`, as this migration issues it:
the management command name, the fixture path argument, and the requested
verbosity. -/
structure LoadCall where
  command : String
  fixture : String
  verbosity : Nat
deriving DecidableEq, Repr

/-- Behaviour of the external bulk-load primitive: given the issued call and
the current store it either returns the new store, or raises; a raise
carries the store it leaves behind (a partial load is representable). -/
abbrev Loader := LoadCall → Store → Except Store Store

/-- Behaviour of the ORM's `Model.objects.all().delete()` for each model
handle: either returns the new store, or raises; a raise carries the store
it leaves behind. -/
abbrev DeleteOp := Collection → Store → Except Store Store

/-- The schema registry handle django passes to a data migration: its
`get_model` resolves an (app label, model name) pair to a model handle, or
raises a lookup error. -/
structure Apps where
  get_model : String → String → Except Unit Collection

/-- The second, unused argument of both hooks; its value is opaque to this
component. -/
abbrev SchemaEditor := Nat

/-- The hard-coded fixture path from the source. -/
def fixture_file : String := "/app/migration/fixtures/safe_full_data.json"

/-- Embedding of `load_initial_safe_data(apps, schema_editor)`.

The result is the final store together with the list of `call_command`
invocations issued, wrapped in `Except Unit` so that an observable raise of
the hook itself is representable. The source checks
`os.path.exists(fixture_file)`, returns if absent, and otherwise runs
`call_command('loaddata', fixture_file, verbosity=0)` under
`try/except Exception: pass`; both outcomes of the loader therefore map to
`Except.ok`. -/
def load_initial_safe_data (apps : Apps) (schema_editor : SchemaEditor)
    (pathExists : String → Bool) (call_command : Loader)
    (s : Store) : Except Unit (Store × List LoadCall) :=
  if pathExists fixture_file = false then
    .ok (s, [])
  else
    match call_command ⟨"loaddata", fixture_file, 0⟩ s with
    | .ok s1 => .ok (s1, [⟨"loaddata", fixture_file, 0⟩])
    | .error s1 => .ok (s1, [⟨"loaddata", fixture_file, 0⟩])

/-- The `try` block of `reverse_initial_safe_data`: issue the deletes in
order; the first raise aborts the whole remaining sequence (the blanket
handler covers the sequence as one block) and is swallowed. Returns the
final store and the list of delete calls issued (the raising call
included). -/
def run_deletes (delete : DeleteOp) : List Collection → Store → Store × List Collection
  | [], s => (s, [])
  | c :: rest, s =>
    match delete c s with
    | .error s1 => (s1, [c])
    | .ok s1 =>
      let r := run_deletes delete rest s1
      (r.1, c :: r.2)

/-- Embedding of `reverse_initial_safe_data(apps, schema_editor)`.

The six `apps.get_model` calls happen first, outside any exception handler,
in the source's order; a raise there propagates. The six deletes then run
inside one `try/except Exception: pass`, in the source's order
SafeContract, Contract, ContractAbi, SafeMasterCopy, ProxyFactory, Chain.
The result carries the final store and the trace of delete calls issued. -/
def reverse_initial_safe_data (apps : Apps) (schema_editor : SchemaEditor)
    (delete : DeleteOp) (s : Store) : Except Unit (Store × List Collection) := do
  let SafeContract ← apps.get_model "history" "SafeContract"
  let SafeMasterCopy ← apps.get_model "history" "SafeMasterCopy"
  let ProxyFactory ← apps.get_model "history" "ProxyFactory"
  let Contract ← apps.get_model "contracts" "Contract"
  let ContractAbi ← apps.get_model "contracts" "ContractAbi"
  let Chain ← apps.get_model "history" "Chain"
  return run_deletes delete
    [SafeContract, Contract, ContractAbi, SafeMasterCopy, ProxyFactory, Chain] s

/-- The fixed order in which the `try` block of the reverse operation
issues its deletes, read off the source. -/
def delete_sequence : List Collection :=
  [.safeContract, .contract, .contractAbi, .safeMasterCopy, .proxyFactory, .chain]

/-- The fixed delete order of the reverse operation, by position. -/
def delete_order (i : Fin 6) : Collection :=
  match i.val with
  | 0 => .safeContract
  | 1 => .contract
  | 2 => .contractAbi
  | 3 => .safeMasterCopy
  | 4 => .proxyFactory
  | _ => .chain

/-- A registry behaving as django's does for this schema: each of the six
(app label, model name) pairs resolves to its model, anything else raises. -/
def stdApps : Apps :=
  ⟨fun app model =>
    match app, model with
    | "history", "SafeContract" => .ok .safeContract
    | "history", "SafeMasterCopy" => .ok .safeMasterCopy
    | "history", "ProxyFactory" => .ok .proxyFactory
    | "contracts", "Contract" => .ok .contract
    | "contracts", "ContractAbi" => .ok .contractAbi
    | "history", "Chain" => .ok .chain
    | _, _ => .error ()⟩

/-- A delete behaviour that never raises and has the ORM's semantics:
deleting all rows of the handle's collection. -/
def stdDelete : DeleteOp := fun c s => .ok (s.set c [])

/-- A delete behaviour raising (without mutation) exactly on one collection
and behaving like `stdDelete` elsewhere. -/
def deleteRaisingOn (bad : Collection) : DeleteOp :=
  fun c s => if c = bad then .error s else .ok (s.set c [])

/-- A sample populated store used by the concrete witnesses. -/
def sampleStore : Store := ⟨[1], [2, 3], [4], [5], [6, 7], [8]⟩

/-- A registry identical to `stdApps` except that resolving Chain raises. -/
def appsNoChain : Apps :=
  ⟨fun app model =>
    match app, model with
    | "history", "SafeContract" => .ok .safeContract
    | "history", "SafeMasterCopy" => .ok .safeMasterCopy
    | "history", "ProxyFactory" => .ok .proxyFactory
    | "contracts", "Contract" => .ok .contract
    | "contracts", "ContractAbi" => .ok .contractAbi
    | _, _ => .error ()⟩

/-- Computation rule: bind on a successful Except value applies the
continuation. -/
theorem except_bind_ok {ε : Type u} {α β : Type v} (a : α) (f : α → Except ε β) :
    (Except.ok a : Except ε α) >>= f = f a := rfl

/-- Computation rule: bind on a raising Except value short-circuits. -/
theorem except_bind_error {ε : Type u} {α β : Type v} (e : ε) (f : α → Except ε β) :
    (Except.error e : Except ε α) >>= f = Except.error e := rfl

/-- Unfolding lemma: a successful delete call contributes its collection to
the trace and the sequence continues on the new store. -/
theorem run_deletes_cons_ok {delete : DeleteOp} {c : Collection}
    {cs : List Collection} {s s1 : Store} (h : delete c s = .ok s1) :
    run_deletes delete (c :: cs) s =
      ((run_deletes delete cs s1).1, c :: (run_deletes delete cs s1).2) := by
  simp [run_deletes, h]

/-- Unfolding lemma: a raising delete call aborts the rest of the sequence;
the swallowed exception leaves the store the raise left behind. -/
theorem run_deletes_cons_error {delete : DeleteOp} {c : Collection}
    {cs : List Collection} {s s1 : Store} (h : delete c s = .error s1) :
    run_deletes delete (c :: cs) s = (s1, [c]) := by
  simp [run_deletes, h]

/-- Helper: when the six registry lookups succeed with any handles, the
reverse hook reduces to the swallowed delete sequence over those handles. -/
theorem reverse_eq_of_lookups {apps : Apps} (se : SchemaEditor)
    (delete : DeleteOp) (s : Store) {m1 m2 m3 m4 m5 m6 : Collection}
    (h1 : apps.get_model "history" "SafeContract" = .ok m1)
    (h2 : apps.get_model "history" "SafeMasterCopy" = .ok m2)
    (h3 : apps.get_model "history" "ProxyFactory" = .ok m3)
    (h4 : apps.get_model "contracts" "Contract" = .ok m4)
    (h5 : apps.get_model "contracts" "ContractAbi" = .ok m5)
    (h6 : apps.get_model "history" "Chain" = .ok m6) :
    reverse_initial_safe_data apps se delete s =
      .ok (run_deletes delete [m1, m4, m5, m2, m3, m6] s) := by
  simp [reverse_initial_safe_data, h1, h2, h3, h4, h5, h6, except_bind_ok]

/-- Helper: with correctly resolving lookups and a delete behaviour that
never raises and empties its collection, reverse empties all six
collections and issues the six deletes in the fixed source order. -/
theorem reverse_std_run {apps : Apps} (se : SchemaEditor)
    (delete : DeleteOp) (s : Store)
    (h1 : apps.get_model "history" "SafeContract" = .ok .safeContract)
    (h2 : apps.get_model "history" "SafeMasterCopy" = .ok .safeMasterCopy)
    (h3 : apps.get_model "history" "ProxyFactory" = .ok .proxyFactory)
    (h4 : apps.get_model "contracts" "Contract" = .ok .contract)
    (h5 : apps.get_model "contracts" "ContractAbi" = .ok .contractAbi)
    (h6 : apps.get_model "history" "Chain" = .ok .chain)
    (hdel : ∀ c t, delete c t = .ok (t.set c [])) :
    reverse_initial_safe_data apps se delete s =
      .ok (emptyStore,
        [.safeContract, .contract, .contractAbi, .safeMasterCopy, .proxyFactory, .chain]) := by
  rw [reverse_eq_of_lookups se delete s h1 h2 h3 h4 h5 h6]
  cases s
  simp [run_deletes, hdel, Store.set, emptyStore]

/-- Claim C1: for every store state and every behaviour of the six delete
operations, including any of them raising at any point, the reverse hook
returns normally (given that the six model lookups it performs first
resolve, which is the registry's normal behaviour). -/
theorem C1_reverse_never_fails (apps : Apps) (se : SchemaEditor)
    (delete : DeleteOp) (s : Store) (m1 m2 m3 m4 m5 m6 : Collection)
    (h1 : apps.get_model "history" "SafeContract" = .ok m1)
    (h2 : apps.get_model "history" "SafeMasterCopy" = .ok m2)
    (h3 : apps.get_model "history" "ProxyFactory" = .ok m3)
    (h4 : apps.get_model "contracts" "Contract" = .ok m4)
    (h5 : apps.get_model "contracts" "ContractAbi" = .ok m5)
    (h6 : apps.get_model "history" "Chain" = .ok m6) :
    ∃ r, reverse_initial_safe_data apps se delete s = .ok r :=
  ⟨_, reverse_eq_of_lookups se delete s h1 h2 h3 h4 h5 h6⟩

/-- Witness for C1 at a concrete environment: the standard registry, a
delete behaviour that always raises, and a populated store; reverse still
returns normally. -/
theorem C1_reverse_never_fails_witness :
    stdApps.get_model "history" "SafeContract" = Except.ok Collection.safeContract ∧
      ∃ r, reverse_initial_safe_data stdApps 0 (fun _ t => .error t) sampleStore = .ok r :=
  ⟨rfl, C1_reverse_never_fails stdApps 0 (fun _ t => .error t) sampleStore
    .safeContract .safeMasterCopy .proxyFactory .contract .contractAbi .chain
    rfl rfl rfl rfl rfl rfl⟩

/-- Claim C3: when no delete raises, reverse issues delete-all against
exactly the six collections in the fixed order SafeContract, Contract,
ContractAbi, SafeMasterCopy, ProxyFactory, Chain, and afterwards all six
collections are empty, whatever rows the store held before. -/
theorem C3_reverse_truncates_all_in_order (apps : Apps) (se : SchemaEditor)
    (delete : DeleteOp) (s : Store)
    (h1 : apps.get_model "history" "SafeContract" = .ok .safeContract)
    (h2 : apps.get_model "history" "SafeMasterCopy" = .ok .safeMasterCopy)
    (h3 : apps.get_model "history" "ProxyFactory" = .ok .proxyFactory)
    (h4 : apps.get_model "contracts" "Contract" = .ok .contract)
    (h5 : apps.get_model "contracts" "ContractAbi" = .ok .contractAbi)
    (h6 : apps.get_model "history" "Chain" = .ok .chain)
    (hdel : ∀ c t, delete c t = .ok (t.set c [])) :
    reverse_initial_safe_data apps se delete s =
      .ok (emptyStore,
        [.safeContract, .contract, .contractAbi, .safeMasterCopy, .proxyFactory, .chain]) :=
  reverse_std_run se delete s h1 h2 h3 h4 h5 h6 hdel

/-- Witness for C3 at a concrete environment: the standard registry and the
never-raising ORM delete on a store populated in all six collections. -/
theorem C3_reverse_truncates_all_in_order_witness :
    reverse_initial_safe_data stdApps 0 stdDelete sampleStore =
      .ok (emptyStore,
        [.safeContract, .contract, .contractAbi, .safeMasterCopy, .proxyFactory, .chain]) :=
  C3_reverse_truncates_all_in_order stdApps 0 stdDelete sampleStore
    rfl rfl rfl rfl rfl rfl (fun _ _ => rfl)

/-- Claim C9: the six model lookups happen before the exception-suppressing
block, so if any of them raises, reverse propagates the lookup error to its
caller instead of swallowing it. -/
theorem C9_lookup_raise_propagates (apps : Apps) (se : SchemaEditor)
    (delete : DeleteOp) (s : Store)
    (h : apps.get_model "history" "SafeContract" = .error () ∨
      apps.get_model "history" "SafeMasterCopy" = .error () ∨
      apps.get_model "history" "ProxyFactory" = .error () ∨
      apps.get_model "contracts" "Contract" = .error () ∨
      apps.get_model "contracts" "ContractAbi" = .error () ∨
      apps.get_model "history" "Chain" = .error ()) :
    reverse_initial_safe_data apps se delete s = .error () := by
  cases e1 : apps.get_model "history" "SafeContract" with
  | error u => cases u; simp [reverse_initial_safe_data, e1, except_bind_ok, except_bind_error]
  | ok m1 =>
  cases e2 : apps.get_model "history" "SafeMasterCopy" with
  | error u => cases u; simp [reverse_initial_safe_data, e1, e2, except_bind_ok, except_bind_error]
  | ok m2 =>
  cases e3 : apps.get_model "history" "ProxyFactory" with
  | error u => cases u; simp [reverse_initial_safe_data, e1, e2, e3, except_bind_ok, except_bind_error]
  | ok m3 =>
  cases e4 : apps.get_model "contracts" "Contract" with
  | error u => cases u; simp [reverse_initial_safe_data, e1, e2, e3, e4, except_bind_ok, except_bind_error]
  | ok m4 =>
  cases e5 : apps.get_model "contracts" "ContractAbi" with
  | error u => cases u; simp [reverse_initial_safe_data, e1, e2, e3, e4, e5, except_bind_ok, except_bind_error]
  | ok m5 =>
  cases e6 : apps.get_model "history" "Chain" with
  | error u => cases u; simp [reverse_initial_safe_data, e1, e2, e3, e4, e5, e6, except_bind_ok, except_bind_error]
  | ok m6 => rcases h with h | h | h | h | h | h <;> simp_all

/-- Witness for C9 at a concrete environment: a registry in which only the
Chain lookup raises; all five earlier lookups succeed, yet reverse fails
observably even though the delete behaviour never raises. -/
theorem C9_lookup_raise_propagates_witness :
    appsNoChain.get_model "history" "Chain" = Except.error () ∧
      reverse_initial_safe_data appsNoChain 0 stdDelete sampleStore = .error () :=
  ⟨rfl, C9_lookup_raise_propagates appsNoChain 0 stdDelete sampleStore
    (.inr (.inr (.inr (.inr (.inr rfl)))))⟩

/-- Helper: the apply hook returns normally in every environment; both
branches of the filesystem check and both outcomes of the loader end in an
`Except.ok`. -/
theorem load_always_ok (apps : Apps) (se : SchemaEditor)
    (pathExists : String → Bool) (call_command : Loader) (s : Store) :
    ∃ r, load_initial_safe_data apps se pathExists call_command s = .ok r := by
  cases hp : pathExists fixture_file with
  | false => exact ⟨(s, []), by simp [load_initial_safe_data, hp]⟩
  | true =>
    cases hc : call_command ⟨"loaddata", fixture_file, 0⟩ s with
    | error s1 => exact ⟨(s1, [⟨"loaddata", fixture_file, 0⟩]), by
        simp [load_initial_safe_data, hp, hc]⟩
    | ok s1 => exact ⟨(s1, [⟨"loaddata", fixture_file, 0⟩]), by
        simp [load_initial_safe_data, hp, hc]⟩

/-- Claim C2: whatever the filesystem state and whatever the bulk-load
primitive does (success, raise with or without a partial load), the apply
hook returns normally: every outcome is an `Except.ok`. -/
theorem C2_apply_never_fails (apps : Apps) (se : SchemaEditor)
    (pathExists : String → Bool) (call_command : Loader) (s : Store) :
    ∃ r, load_initial_safe_data apps se pathExists call_command s = .ok r :=
  load_always_ok apps se pathExists call_command s

/-- Claim C4: when the fixed fixture path does not exist, the apply hook
returns at once with no bulk-load invocation, no error, and the store
unchanged. -/
theorem C4_apply_missing_fixture (apps : Apps) (se : SchemaEditor)
    (pathExists : String → Bool) (call_command : Loader) (s : Store)
    (h : pathExists fixture_file = false) :
    load_initial_safe_data apps se pathExists call_command s = .ok (s, []) := by
  simp [load_initial_safe_data, h]

/-- Witness for C4 at a concrete environment: the path is reported absent
and apply leaves the sample store untouched, issuing no load call. -/
theorem C4_apply_missing_fixture_witness :
    (fun _ : String => false) fixture_file = false ∧
      load_initial_safe_data stdApps 0 (fun _ => false) (fun _ s => .ok s) sampleStore =
        .ok (sampleStore, []) :=
  ⟨rfl, C4_apply_missing_fixture stdApps 0 (fun _ => false) (fun _ s => .ok s) sampleStore rfl⟩

/-- Claim C5: when the fixed fixture path exists, the apply hook invokes the
bulk-load primitive exactly once, as the management command "loaddata" with
that path and verbosity 0. -/
theorem C5_apply_calls_loader_once (apps : Apps) (se : SchemaEditor)
    (pathExists : String → Bool) (call_command : Loader) (s : Store)
    (h : pathExists fixture_file = true) :
    ∃ s1, load_initial_safe_data apps se pathExists call_command s =
      .ok (s1, [⟨"loaddata", fixture_file, 0⟩]) := by
  cases hc : call_command ⟨"loaddata", fixture_file, 0⟩ s with
  | error s1 => exact ⟨s1, by simp [load_initial_safe_data, h, hc]⟩
  | ok s1 => exact ⟨s1, by simp [load_initial_safe_data, h, hc]⟩

/-- Witness for C5 at a concrete environment: the path is reported present
and apply issues exactly one load call for it at verbosity 0. -/
theorem C5_apply_calls_loader_once_witness :
    (fun _ : String => true) fixture_file = true ∧
      ∃ s1, load_initial_safe_data stdApps 0 (fun _ => true) (fun _ s => .ok s) sampleStore =
        .ok (s1, [⟨"loaddata", fixture_file, 0⟩]) :=
  ⟨rfl, C5_apply_calls_loader_once stdApps 0 (fun _ => true) (fun _ s => .ok s) sampleStore rfl⟩

/-- Claim C10: the migration context is never read — apply uses neither
`apps` nor `schema_editor`, and reverse never uses `schema_editor`; under a
fixed filesystem, loader and delete behaviour, the results coincide for any
two contexts. -/
theorem C10_context_unread :
    (∀ (apps1 apps2 : Apps) (se1 se2 : SchemaEditor) (pathExists : String → Bool)
        (call_command : Loader) (s : Store),
      load_initial_safe_data apps1 se1 pathExists call_command s =
        load_initial_safe_data apps2 se2 pathExists call_command s) ∧
    (∀ (apps : Apps) (se1 se2 : SchemaEditor) (delete : DeleteOp) (s : Store),
      reverse_initial_safe_data apps se1 delete s =
        reverse_initial_safe_data apps se2 delete s) :=
  ⟨fun _ _ _ _ _ _ _ => rfl, fun _ _ _ _ _ => rfl⟩

/-- Claim C6: if the delete at position k of the six-step sequence raises,
reverse itself still returns normally, the deletes after position k are
skipped (their collections keep their original rows), and the deletes
before position k keep their effect (their collections are empty); the
trace stops at the raising call. -/
theorem C6_partial_delete_failure (apps : Apps) (se : SchemaEditor)
    (delete : DeleteOp) (s : Store) (k : Fin 6)
    (h1 : apps.get_model "history" "SafeContract" = .ok .safeContract)
    (h2 : apps.get_model "history" "SafeMasterCopy" = .ok .safeMasterCopy)
    (h3 : apps.get_model "history" "ProxyFactory" = .ok .proxyFactory)
    (h4 : apps.get_model "contracts" "Contract" = .ok .contract)
    (h5 : apps.get_model "contracts" "ContractAbi" = .ok .contractAbi)
    (h6 : apps.get_model "history" "Chain" = .ok .chain)
    (hok : ∀ i : Fin 6, i < k →
      ∀ t, delete (delete_order i) t = .ok (t.set (delete_order i) []))
    (hraise : ∀ t, delete (delete_order k) t = .error t) :
    ∃ s1, reverse_initial_safe_data apps se delete s =
        .ok (s1, delete_sequence.take (k.val + 1)) ∧
      (∀ i : Fin 6, i < k → s1.get (delete_order i) = []) ∧
      (∀ i : Fin 6, k ≤ i → s1.get (delete_order i) = s.get (delete_order i)) := by
  rw [reverse_eq_of_lookups se delete s h1 h2 h3 h4 h5 h6]
  fin_cases k
  · have er : ∀ t, delete .safeContract t = .error t := hraise
    refine ⟨s, ?_, ?_, ?_⟩
    · rw [run_deletes_cons_error (er s)]; rfl
    · intro i hi; fin_cases i <;> exact absurd hi (by decide)
    · intro i hi; rfl
  · have e0 : ∀ t, delete .safeContract t = .ok (t.set .safeContract []) :=
      hok 0 (by decide)
    have er : ∀ t, delete .contract t = .error t := hraise
    refine ⟨s.set .safeContract [], ?_, ?_, ?_⟩
    · rw [run_deletes_cons_ok (e0 s), run_deletes_cons_error (er (s.set .safeContract []))]
      rfl
    · intro i hi; fin_cases i <;> first | exact absurd hi (by decide) | rfl
    · intro i hi; fin_cases i <;> first | exact absurd hi (by decide) | rfl
  · have e0 : ∀ t, delete .safeContract t = .ok (t.set .safeContract []) :=
      hok 0 (by decide)
    have e1 : ∀ t, delete .contract t = .ok (t.set .contract []) :=
      hok 1 (by decide)
    have er : ∀ t, delete .contractAbi t = .error t := hraise
    refine ⟨(s.set .safeContract []).set .contract [], ?_, ?_, ?_⟩
    · rw [run_deletes_cons_ok (e0 s),
        run_deletes_cons_ok (e1 (s.set .safeContract [])),
        run_deletes_cons_error (er ((s.set .safeContract []).set .contract []))]
      rfl
    · intro i hi; fin_cases i <;> first | exact absurd hi (by decide) | rfl
    · intro i hi; fin_cases i <;> first | exact absurd hi (by decide) | rfl
  · have e0 : ∀ t, delete .safeContract t = .ok (t.set .safeContract []) :=
      hok 0 (by decide)
    have e1 : ∀ t, delete .contract t = .ok (t.set .contract []) :=
      hok 1 (by decide)
    have e2 : ∀ t, delete .contractAbi t = .ok (t.set .contractAbi []) :=
      hok 2 (by decide)
    have er : ∀ t, delete .safeMasterCopy t = .error t := hraise
    refine ⟨((s.set .safeContract []).set .contract []).set .contractAbi [], ?_, ?_, ?_⟩
    · rw [run_deletes_cons_ok (e0 s),
        run_deletes_cons_ok (e1 (s.set .safeContract [])),
        run_deletes_cons_ok (e2 ((s.set .safeContract []).set .contract [])),
        run_deletes_cons_error
          (er (((s.set .safeContract []).set .contract []).set .contractAbi []))]
      rfl
    · intro i hi; fin_cases i <;> first | exact absurd hi (by decide) | rfl
    · intro i hi; fin_cases i <;> first | exact absurd hi (by decide) | rfl
  · have e0 : ∀ t, delete .safeContract t = .ok (t.set .safeContract []) :=
      hok 0 (by decide)
    have e1 : ∀ t, delete .contract t = .ok (t.set .contract []) :=
      hok 1 (by decide)
    have e2 : ∀ t, delete .contractAbi t = .ok (t.set .contractAbi []) :=
      hok 2 (by decide)
    have e3 : ∀ t, delete .safeMasterCopy t = .ok (t.set .safeMasterCopy []) :=
      hok 3 (by decide)
    have er : ∀ t, delete .proxyFactory t = .error t := hraise
    refine ⟨(((s.set .safeContract []).set .contract []).set .contractAbi []).set
      .safeMasterCopy [], ?_, ?_, ?_⟩
    · rw [run_deletes_cons_ok (e0 s),
        run_deletes_cons_ok (e1 (s.set .safeContract [])),
        run_deletes_cons_ok (e2 ((s.set .safeContract []).set .contract [])),
        run_deletes_cons_ok
          (e3 (((s.set .safeContract []).set .contract []).set .contractAbi [])),
        run_deletes_cons_error
          (er ((((s.set .safeContract []).set .contract []).set .contractAbi []).set
            .safeMasterCopy []))]
      rfl
    · intro i hi; fin_cases i <;> first | exact absurd hi (by decide) | rfl
    · intro i hi; fin_cases i <;> first | exact absurd hi (by decide) | rfl
  · have e0 : ∀ t, delete .safeContract t = .ok (t.set .safeContract []) :=
      hok 0 (by decide)
    have e1 : ∀ t, delete .contract t = .ok (t.set .contract []) :=
      hok 1 (by decide)
    have e2 : ∀ t, delete .contractAbi t = .ok (t.set .contractAbi []) :=
      hok 2 (by decide)
    have e3 : ∀ t, delete .safeMasterCopy t = .ok (t.set .safeMasterCopy []) :=
      hok 3 (by decide)
    have e4 : ∀ t, delete .proxyFactory t = .ok (t.set .proxyFactory []) :=
      hok 4 (by decide)
    have er : ∀ t, delete .chain t = .error t := hraise
    refine ⟨((((s.set .safeContract []).set .contract []).set .contractAbi []).set
      .safeMasterCopy []).set .proxyFactory [], ?_, ?_, ?_⟩
    · rw [run_deletes_cons_ok (e0 s),
        run_deletes_cons_ok (e1 (s.set .safeContract [])),
        run_deletes_cons_ok (e2 ((s.set .safeContract []).set .contract [])),
        run_deletes_cons_ok
          (e3 (((s.set .safeContract []).set .contract []).set .contractAbi [])),
        run_deletes_cons_ok
          (e4 ((((s.set .safeContract []).set .contract []).set .contractAbi []).set
            .safeMasterCopy [])),
        run_deletes_cons_error
          (er (((((s.set .safeContract []).set .contract []).set .contractAbi []).set
            .safeMasterCopy []).set .proxyFactory []))]
      rfl
    · intro i hi; fin_cases i <;> first | exact absurd hi (by decide) | rfl
    · intro i hi; fin_cases i <;> first | exact absurd hi (by decide) | rfl

/-- Witness for C6 at a concrete environment: the delete of ContractAbi
(position 2) raises; reverse returns normally, SafeContract and Contract
are emptied, the four later collections keep their sample rows. -/
theorem C6_partial_delete_failure_witness :
    ∃ s1, reverse_initial_safe_data stdApps 0 (deleteRaisingOn .contractAbi) sampleStore =
        .ok (s1, delete_sequence.take ((2 : Fin 6).val + 1)) ∧
      (∀ i : Fin 6, i < 2 → s1.get (delete_order i) = []) ∧
      (∀ i : Fin 6, (2 : Fin 6) ≤ i →
        s1.get (delete_order i) = sampleStore.get (delete_order i)) :=
  C6_partial_delete_failure stdApps 0 (deleteRaisingOn .contractAbi) sampleStore 2
    rfl rfl rfl rfl rfl rfl
    (by intro i hi t; fin_cases i <;> first | rfl | exact absurd hi (by decide))
    (fun t => rfl)

/-- Claim C7: running apply twice never raises, whatever the loader does on
either run (duplicate-key errors in the second run included); running
reverse twice never raises, whatever the deletes do; and with the ORM's
normal delete semantics the second reverse is a no-op on the already-empty
store, leaving the same state as a single reverse. -/
theorem C7_idempotence (apps : Apps) (se : SchemaEditor)
    (pathExists : String → Bool) (s : Store)
    (h1 : apps.get_model "history" "SafeContract" = .ok .safeContract)
    (h2 : apps.get_model "history" "SafeMasterCopy" = .ok .safeMasterCopy)
    (h3 : apps.get_model "history" "ProxyFactory" = .ok .proxyFactory)
    (h4 : apps.get_model "contracts" "Contract" = .ok .contract)
    (h5 : apps.get_model "contracts" "ContractAbi" = .ok .contractAbi)
    (h6 : apps.get_model "history" "Chain" = .ok .chain) :
    (∀ call_command : Loader, ∃ r1 r2,
      load_initial_safe_data apps se pathExists call_command s = .ok r1 ∧
        load_initial_safe_data apps se pathExists call_command r1.1 = .ok r2) ∧
    (∀ delete : DeleteOp, ∃ q1 q2,
      reverse_initial_safe_data apps se delete s = .ok q1 ∧
        reverse_initial_safe_data apps se delete q1.1 = .ok q2) ∧
    (∀ delete : DeleteOp, (∀ c t, delete c t = .ok (t.set c [])) →
      ∃ q1 q2,
        reverse_initial_safe_data apps se delete s = .ok q1 ∧
          reverse_initial_safe_data apps se delete q1.1 = .ok q2 ∧ q2.1 = q1.1) := by
  refine ⟨?_, ?_, ?_⟩
  · intro call_command
    obtain ⟨r1, hr1⟩ := load_always_ok apps se pathExists call_command s
    obtain ⟨r2, hr2⟩ := load_always_ok apps se pathExists call_command r1.1
    exact ⟨r1, r2, hr1, hr2⟩
  · intro delete
    exact ⟨_, _, reverse_eq_of_lookups se delete s h1 h2 h3 h4 h5 h6,
      reverse_eq_of_lookups se delete _ h1 h2 h3 h4 h5 h6⟩
  · intro delete hdel
    exact ⟨(emptyStore, delete_sequence), (emptyStore, delete_sequence),
      reverse_std_run se delete s h1 h2 h3 h4 h5 h6 hdel,
      reverse_std_run se delete emptyStore h1 h2 h3 h4 h5 h6 hdel, rfl⟩

/-- Witness for C7 at a concrete environment: two consecutive reverses with
the standard registry and ORM delete, starting from the populated sample
store; both succeed and the second leaves the store of the first. -/
theorem C7_idempotence_witness :
    ∃ q1 q2,
      reverse_initial_safe_data stdApps 0 stdDelete sampleStore = .ok q1 ∧
        reverse_initial_safe_data stdApps 0 stdDelete q1.1 = .ok q2 ∧ q2.1 = q1.1 :=
  (C7_idempotence stdApps 0 (fun _ => true) sampleStore
    rfl rfl rfl rfl rfl rfl).2.2 stdDelete (fun _ _ => rfl)

/-- Modelled from the spec: the external bulk-load primitive (the framework
management command named by "loaddata") is not part of this repository; on
a well-formed fixture holding valid records for the six collections it
parses the file and inserts exactly those records into their collections,
returning successfully. -/
def well_formed_loaddata (fixture : Collection → List Record) : Loader :=
  fun _ s =>
    .ok ⟨s.safeContract ++ fixture .safeContract,
      s.contract ++ fixture .contract,
      s.contractAbi ++ fixture .contractAbi,
      s.safeMasterCopy ++ fixture .safeMasterCopy,
      s.proxyFactory ++ fixture .proxyFactory,
      s.chain ++ fixture .chain⟩

/-- Claim C8: with a well-formed fixture at the fixed path, apply completes
without raising and exactly the fixture's records are present afterwards
(starting from the empty store). -/
theorem C8_apply_loads_exactly_fixture (apps : Apps) (se : SchemaEditor)
    (pathExists : String → Bool) (fixture : Collection → List Record)
    (h : pathExists fixture_file = true) :
    ∃ r, load_initial_safe_data apps se pathExists
        (well_formed_loaddata fixture) emptyStore = .ok r ∧
      ∀ c, r.1.get c = fixture c := by
  refine ⟨(⟨fixture .safeContract, fixture .contract, fixture .contractAbi,
    fixture .safeMasterCopy, fixture .proxyFactory, fixture .chain⟩,
    [⟨"loaddata", fixture_file, 0⟩]), ?_, ?_⟩
  · simp [load_initial_safe_data, h, well_formed_loaddata, emptyStore]
  · intro c; cases c <;> rfl

/-- Witness for C8 at a concrete environment: a one-record-per-collection
fixture is loaded in full from the existing path into the empty store. -/
theorem C8_apply_loads_exactly_fixture_witness :
    ∃ r, load_initial_safe_data stdApps 0 (fun _ => true)
        (well_formed_loaddata fun _ => [9]) emptyStore = .ok r ∧
      ∀ c, r.1.get c = [9] :=
  C8_apply_loads_exactly_fixture stdApps 0 (fun _ => true) (fun _ => [9]) rfl

end SafeMigration
